import Mathlib

/-!
# Verification of the Route-Engine dashboard data-synchronization layer

Shallow embedding of the dashboard's data-sync core:

* `src/frontend/src/hooks/useApi.ts` — the `fetcher`, the three SWR hook
  configurations (`useDashboardOverview`, `useChartsData`, `useRecentActivities`),
  and `refreshAllData`;
* the application's `handleRefresh` callback (manual refresh action);
* `src/frontend/src/utils/formatters.ts` — `formatDuration`.

JavaScript promises are modelled by their settlement (a virtual settlement time
plus a fulfilled/rejected flag); JavaScript numbers appearing in `formatDuration`
are modelled as rationals (all operations involved — `Math.floor`, `Math.round`,
`%` — are exact on the inputs of interest); template-literal interpolation of a
nonnegative integer is modelled by a decimal-printing function proved injective.

The SWR-internal cache-commit and request-deduplication behaviour is not part of
the repository's sources; those parts are modelled from the specification and
are marked `Modelled from the spec:` in their doc comments.
-/

namespace RouteEngine

/-! ## String helpers -/

/-- Unfolding of `String.append` to list append on the underlying character data. -/
theorem strAppend_data (s t : String) : (s ++ t).data = s.data ++ t.data := by
  cases s; cases t; rfl

/-- Appending to a fixed string on the left is injective. -/
theorem strAppend_left_cancel {s t u : String} (h : s ++ t = s ++ u) : t = u := by
  have h2 : (s ++ t).data = (s ++ u).data := by rw [h]
  rw [strAppend_data, strAppend_data] at h2
  have h3 := List.append_cancel_left h2
  cases t; cases u; exact congrArg String.mk h3

/-- A string of length zero is the empty string. -/
theorem str_eq_empty_of_length_zero {s : String} (h : s.length = 0) : s = "" := by
  cases s with
  | mk data =>
    have hd : data.length = 0 := h
    have : data = [] := List.length_eq_zero.mp hd
    rw [this]

/-- No string of the form `s ++ "min"` is the string `"N/A"`. -/
theorem append_min_ne_NA (s : String) : s ++ "min" ≠ "N/A" := by
  intro h
  have hl := congrArg String.length h
  rw [String.length_append] at hl
  have hmin : ("min" : String).length = 3 := by decide
  have hna : ("N/A" : String).length = 3 := by decide
  rw [hmin, hna] at hl
  have hs : s = "" := str_eq_empty_of_length_zero (by omega)
  rw [hs] at h
  exact absurd h (by decide)

/-- No string of the form `a ++ "h " ++ b ++ "m"` is the string `"N/A"`. -/
theorem append_hm_ne_NA (a b : String) : a ++ "h " ++ b ++ "m" ≠ "N/A" := by
  intro h
  have hl := congrArg String.length h
  rw [String.length_append, String.length_append, String.length_append] at hl
  have h1 : ("h " : String).length = 2 := by decide
  have h2 : ("m" : String).length = 1 := by decide
  have hna : ("N/A" : String).length = 3 := by decide
  rw [h1, h2, hna] at hl
  have ha : a = "" := str_eq_empty_of_length_zero (by omega)
  have hb : b = "" := str_eq_empty_of_length_zero (by omega)
  rw [ha, hb] at h
  exact absurd h (by decide)

/-! ## Decimal printing of a JavaScript number

Template literals such as `` `limit=${limit}` `` and `` `${hours}h ${mins}m` ``
convert a number to its decimal string. For the (integer-valued, nonnegative)
numbers that occur here this is ordinary base-10 printing, embedded below with
explicit fuel so that it is structurally recursive and kernel-evaluable. -/

/-- Digit-extraction loop of decimal printing: peel the last decimal digit of `n`
onto the accumulator until a single digit remains; `fuel` bounds the recursion
depth (any `fuel > n` is enough). -/
def toDecimalAux : Nat → Nat → List Char → List Char
  | 0, _, acc => acc
  | fuel+1, n, acc =>
    if n < 10 then Nat.digitChar (n % 10) :: acc
    else toDecimalAux fuel (n / 10) (Nat.digitChar (n % 10) :: acc)

/-- One-step unfolding of the digit-extraction loop. -/
theorem toDecimalAux_succ (fuel n : Nat) (acc : List Char) :
    toDecimalAux (fuel + 1) n acc =
      if n < 10 then Nat.digitChar (n % 10) :: acc
      else toDecimalAux fuel (n / 10) (Nat.digitChar (n % 10) :: acc) := rfl

/-- Decimal digits of `n`, most significant first. -/
def jsDigits (n : Nat) : List Char := toDecimalAux (n + 1) n []

/-- Decimal string of a nonnegative JavaScript number (template-literal interpolation). -/
def jsNatToString (n : Nat) : String := (jsDigits n).asString

/-- Decimal string of a JavaScript integer, with a leading minus sign when negative. -/
def jsIntToString : Int → String
  | Int.ofNat n => jsNatToString n
  | Int.negSucc n => "-" ++ jsNatToString (n + 1)

/-- The accumulator of `toDecimalAux` is a suffix of the output. -/
theorem toDecimalAux_append (fuel : Nat) : ∀ (n : Nat) (acc : List Char),
    toDecimalAux fuel n acc = toDecimalAux fuel n [] ++ acc := by
  induction fuel with
  | zero => intro n acc; rfl
  | succ fuel ih =>
    intro n acc
    by_cases h : n < 10
    · simp [toDecimalAux, h]
    · simp only [toDecimalAux, if_neg h]
      rw [ih (n / 10) (Nat.digitChar (n % 10) :: acc), ih (n / 10) [Nat.digitChar (n % 10)]]
      simp

/-- The result of `toDecimalAux` does not depend on the fuel, as long as it exceeds `n`. -/
theorem toDecimalAux_fuel (fuel₁ : Nat) : ∀ (fuel₂ n : Nat) (acc : List Char),
    n < fuel₁ → n < fuel₂ → toDecimalAux fuel₁ n acc = toDecimalAux fuel₂ n acc := by
  induction fuel₁ with
  | zero => intro _ n _ h _; exact absurd h (Nat.not_lt_zero n)
  | succ f ih =>
    intro fuel₂ n acc h1 h2
    cases fuel₂ with
    | zero => exact absurd h2 (Nat.not_lt_zero n)
    | succ f₂ =>
      rw [toDecimalAux_succ, toDecimalAux_succ]
      by_cases h : n < 10
      · rw [if_pos h, if_pos h]
      · rw [if_neg h, if_neg h]
        have hdiv : n / 10 < n := Nat.div_lt_self (by omega) (by omega)
        exact ih f₂ (n / 10) _ (by omega) (by omega)

/-- Recurrence for `jsDigits`: last decimal digit appended to the digits of `n / 10`. -/
theorem jsDigits_eq (n : Nat) :
    jsDigits n = if n < 10 then [Nat.digitChar (n % 10)]
                 else jsDigits (n / 10) ++ [Nat.digitChar (n % 10)] := by
  show toDecimalAux (n + 1) n [] = _
  rw [toDecimalAux_succ]
  by_cases h : n < 10
  · rw [if_pos h, if_pos h]
  · have hdiv : n / 10 < n := Nat.div_lt_self (by omega) (by omega)
    rw [if_neg h, if_neg h]
    rw [toDecimalAux_append n (n / 10) [Nat.digitChar (n % 10)]]
    rw [toDecimalAux_fuel n (n / 10 + 1) (n / 10) [] hdiv (by omega)]
    rfl

/-- Decimal printing never yields the empty digit list. -/
theorem jsDigits_ne_nil (n : Nat) : jsDigits n ≠ [] := by
  rw [jsDigits_eq]
  by_cases h : n < 10 <;> simp [h]

/-- On single digits, `Nat.digitChar` is injective. -/
theorem digitChar_inj_of_lt {a b : Nat} (ha : a < 10) (hb : b < 10)
    (h : Nat.digitChar a = Nat.digitChar b) : a = b := by
  interval_cases a <;> interval_cases b <;> first | rfl | (exfalso; revert h; decide)

/-- Decimal digit lists of distinct numbers differ. -/
theorem jsDigits_injective : ∀ (m n : Nat), jsDigits m = jsDigits n → m = n := by
  intro m
  induction m using Nat.strong_induction_on with
  | _ m ih =>
    intro n h
    rw [jsDigits_eq m, jsDigits_eq n] at h
    by_cases hm : m < 10 <;> by_cases hn : n < 10
    · rw [if_pos hm, if_pos hn] at h
      have hd : Nat.digitChar (m % 10) = Nat.digitChar (n % 10) := by
        simpa using h
      have := digitChar_inj_of_lt (Nat.mod_lt m (by omega)) (Nat.mod_lt n (by omega)) hd
      omega
    · exfalso
      rw [if_pos hm, if_neg hn] at h
      have hlen := congrArg List.length h
      simp only [List.length_append, List.length_singleton, List.length_cons,
        List.length_nil] at hlen
      have h0 : (jsDigits (n / 10)).length = 0 := by omega
      exact jsDigits_ne_nil (n / 10) (List.length_eq_zero.mp h0)
    · exfalso
      rw [if_neg hm, if_pos hn] at h
      have hlen := congrArg List.length h
      simp only [List.length_append, List.length_singleton, List.length_cons,
        List.length_nil] at hlen
      have h0 : (jsDigits (m / 10)).length = 0 := by omega
      exact jsDigits_ne_nil (m / 10) (List.length_eq_zero.mp h0)
    · rw [if_neg hm, if_neg hn] at h
      have hpair := List.append_inj' h (by simp)
      have hdiv : m / 10 = n / 10 :=
        ih (m / 10) (Nat.div_lt_self (by omega) (by omega)) (n / 10) hpair.1
      have hd : Nat.digitChar (m % 10) = Nat.digitChar (n % 10) := by
        have := hpair.2
        simpa using this
      have hmod := digitChar_inj_of_lt (Nat.mod_lt m (by omega)) (Nat.mod_lt n (by omega)) hd
      omega

/-- Template-literal decimal printing is injective on nonnegative integers. -/
theorem jsNatToString_injective {m n : Nat} (h : jsNatToString m = jsNatToString n) : m = n :=
  jsDigits_injective m n (List.asString_inj.mp h)

/-! ## Fetch Client — `fetcher` (src/frontend/src/hooks/useApi.ts, lines 6-12)

The `fetcher` awaits `fetch(url)`, throws `new Error` with the status in the
message when `response.ok` is false, and otherwise returns `response.json()`.
Its environment (the network) is abstracted as the outcome of the `fetch` call:
either the request could not complete, or a response with a status code and a
body that does or does not parse as JSON. -/

/-- Result of parsing the response body as JSON: a value of the typed payload, or a
parse failure (`response.json()` rejects). -/
inductive JsonBody (α : Type) where
  | ok (v : α)
  | malformed
deriving DecidableEq

/-- Outcome of the browser `fetch(url)` call: the request fails to complete
(rejection of `fetch` itself), or an HTTP response arrives with a status code
and a body. -/
inductive FetchOutcome (α : Type) where
  | netFail
  | response (status : Nat) (body : JsonBody α)
deriving DecidableEq

/-- The three kinds of rejection that can leave the fetch path: the propagated
rejection of `fetch` itself, the `Error` thrown on a non-ok response (its message
built from the status code), and the propagated rejection of `response.json()`. -/
inductive FetchError where
  | networkError
  | apiError (message : String)
  | decodeError
deriving DecidableEq

/-- Message of the `Error` thrown on a non-ok response: the template literal
`` `API error: ${response.status}` ``. -/
def apiErrorMessage (status : Nat) : String := "API error: " ++ jsNatToString status

/-- Meaning of `Response.ok` in the Fetch standard: status in the range 200-299. -/
def responseOk (status : Nat) : Bool := 200 ≤ status && status ≤ 299

/-- The `fetcher` of useApi.ts: awaits the fetch, throws on `!response.ok`,
otherwise returns the parsed JSON body; every failure mode is a typed rejection. -/
def fetcher : FetchOutcome α → Except FetchError α
  | .netFail => .error .networkError
  | .response status body =>
    if !(responseOk status) then .error (.apiError (apiErrorMessage status))
    else
      match body with
      | .ok v => .ok v
      | .malformed => .error .decodeError

/-- The `Error` message thrown on a non-ok response determines the status code. -/
theorem apiErrorMessage_injective {s s' : Nat} (h : apiErrorMessage s = apiErrorMessage s') :
    s = s' :=
  jsNatToString_injective (strAppend_left_cancel h)

/-! ## SWR hook registrations (src/frontend/src/hooks/useApi.ts, lines 14-67) -/

/-- Options object passed to `useSWR` by a hook: the revalidation interval in
milliseconds, the revalidate-on-window-focus flag, and the optional deduping
interval (only the overview hook passes one). -/
structure SWRConfig where
  refreshInterval : Nat
  revalidateOnFocus : Bool
  dedupingInterval : Option Nat := none
deriving DecidableEq

/-- The string `API_BASE` of useApi.ts. -/
def API_BASE : String := "/api/v1/dashboard"

/-- SWR key and request URL of `useDashboardOverview`. -/
def overviewKey : String := API_BASE ++ "/overview"

/-- SWR key and request URL of `useChartsData`. -/
def chartsKey : String := API_BASE ++ "/charts"

/-- SWR key and request URL of `useRecentActivities`: the template literal
`` `${API_BASE}/recent-activities?limit=${limit}` ``. -/
def recentActivitiesKey (limit : Nat) : String :=
  API_BASE ++ "/recent-activities?limit=" ++ jsNatToString limit

/-- Default value of the `limit` parameter of `useRecentActivities`. -/
def useRecentActivitiesDefaultLimit : Nat := 20

/-- Options passed to `useSWR` by `useDashboardOverview`. -/
def useDashboardOverviewConfig : SWRConfig :=
  { refreshInterval := 30000, revalidateOnFocus := true, dedupingInterval := some 5000 }

/-- Options passed to `useSWR` by `useChartsData`. -/
def useChartsDataConfig : SWRConfig :=
  { refreshInterval := 60000, revalidateOnFocus := true }

/-- Options passed to `useSWR` by `useRecentActivities`. -/
def useRecentActivitiesConfig : SWRConfig :=
  { refreshInterval := 15000, revalidateOnFocus := true }

/-- Whether a URL carries a `limit=` query parameter (the substring test suffices
for the URLs of this dashboard). -/
def hasLimitParam (url : String) : Prop := ("limit=").data <:+: url.data

instance (url : String) : Decidable (hasLimitParam url) := by
  unfold hasLimitParam
  infer_instance

/-- The endpoint list of `refreshAllData` (useApi.ts, lines 69-76). -/
def refreshAllDataEndpoints : List String := ["/overview", "/charts", "/recent-activities"]

/-- The URLs fetched by `refreshAllData`: `` `${API_BASE}${endpoint}` ``. -/
def refreshAllDataUrls : List String :=
  refreshAllDataEndpoints.map (fun e => API_BASE ++ e)

/-! ## Promise settlement model

`handleRefresh` (the App's manual-refresh callback) and `refreshAllData` both
await a `Promise.all`. A promise is modelled by its settlement: the virtual time
at which it settles and whether it fulfills (`ok = true`) or rejects. -/

/-- Settlement of one JavaScript promise: when it settles and whether it fulfills. -/
structure Settled where
  time : Nat
  ok : Bool
deriving DecidableEq

/-- Latest settlement time among a list of promises. -/
def maxTime (ps : List Settled) : Nat := ps.foldr (fun p m => max p.time m) 0

/-- Earliest rejection time among a list of promises, if any rejects. -/
def minRejTime (ps : List Settled) : Option Nat :=
  ((ps.filter fun p => !p.ok).map Settled.time).min?

/-- Settlement of `Promise.all(ps)`: it rejects at the first member rejection and
fulfills at the last member settlement when every member fulfills. -/
def promiseAll (ps : List Settled) : Settled :=
  match minRejTime ps with
  | some t => ⟨t, false⟩
  | none => ⟨maxTime ps, true⟩

/-- Settlement of `p.catch(() => null)`: a rejection is converted to fulfillment
(with `null`) at the same time. -/
def catchNull (p : Settled) : Settled := ⟨p.time, true⟩

/-- Settlement of the promise returned by `refreshAllData`, given the settlements
of the raw `fetch` calls for its three endpoints: each is wrapped in
`.catch(() => null)` before `Promise.all`. -/
def refreshAllDataSettle (fetches : List Settled) : Settled :=
  promiseAll (fetches.map catchNull)

/-- Settlement of `await Promise.all([refreshOverview(), refreshCharts(),
refreshActivities()])` inside `handleRefresh`, given the settlements of the three
bound `mutate()` promises (which reject when their revalidation fetch fails);
the `handleRefresh` promise itself settles exactly as this `Promise.all` does,
since no rejection handler is installed. -/
def handleRefreshSettle (mutates : List Settled) : Settled := promiseAll mutates

/-- The constant of `setTimeout(() => setIsRefreshing(false), 500)` in
`handleRefresh`, in milliseconds. -/
def minimumVisibleDuration : Nat := 500

/-- Time at which `setIsRefreshing(false)` runs, if ever: `handleRefresh` sets the
flag at invocation (time 0), awaits the `Promise.all`, and only when that await
completes normally schedules the reset 500 ms later; a rejection skips the
`setTimeout` line entirely. -/
def isRefreshingOffTime (mutates : List Settled) : Option Nat :=
  if (handleRefreshSettle mutates).ok
  then some ((handleRefreshSettle mutates).time + minimumVisibleDuration)
  else none

/-- Value of the `isRefreshing` state at a time `t` past the invocation of
`handleRefresh` (the flag is set synchronously at invocation time 0). -/
def isRefreshingAt (mutates : List Settled) (t : Nat) : Bool :=
  match isRefreshingOffTime mutates with
  | none => true
  | some off => decide (t < off)

/-- Promise.all of fulfilled members settles at the latest member time, fulfilled. -/
theorem promiseAll_of_all_ok {ps : List Settled} (h : ps.all Settled.ok = true) :
    promiseAll ps = ⟨maxTime ps, true⟩ := by
  have hf : ps.filter (fun p => !p.ok) = [] := by
    rw [List.filter_eq_nil_iff]
    intro p hp
    simp [List.all_eq_true.mp h p hp]
  simp [promiseAll, minRejTime, hf]

/-- A rejected Promise.all settles at the rejection time of one of its members. -/
theorem promiseAll_of_rejected {ps : List Settled} (h : (promiseAll ps).ok = false) :
    ∃ p ∈ ps, p.ok = false ∧ p.time = (promiseAll ps).time := by
  cases hmin : minRejTime ps with
  | none =>
    simp only [promiseAll, hmin] at h
    exact absurd h (by decide)
  | some t =>
    simp only [promiseAll, hmin]
    have ht : t ∈ (ps.filter fun p => !p.ok).map Settled.time := by
      unfold minRejTime at hmin
      exact List.min?_mem (fun a b => min_choice a b) hmin
    rcases List.mem_map.mp ht with ⟨p, hpmem, hptime⟩
    rcases List.mem_filter.mp hpmem with ⟨hmem, hok⟩
    exact ⟨p, hmem, by simpa using hok, by simpa using hptime⟩

/-- Every member of a list of promises settles no later than `maxTime`. -/
theorem time_le_maxTime {p : Settled} : ∀ {ps : List Settled}, p ∈ ps → p.time ≤ maxTime ps := by
  intro ps
  induction ps with
  | nil => intro h; exact absurd h (List.not_mem_nil p)
  | cons q qs ih =>
    intro h
    rcases List.mem_cons.mp h with h | h
    · subst h
      simp [maxTime]
    · have := ih h
      simp only [maxTime, List.foldr_cons] at *
      omega

/-- Wrapping every member in `catch` preserves the latest settlement time. -/
theorem maxTime_map_catchNull (ps : List Settled) : maxTime (ps.map catchNull) = maxTime ps := by
  induction ps with
  | nil => rfl
  | cons p ps ih =>
    simp only [List.map_cons, maxTime, List.foldr_cons] at *
    rw [ih]
    rfl

/-- After wrapping in `catch`, every member fulfills. -/
theorem all_ok_map_catchNull (ps : List Settled) : (ps.map catchNull).all Settled.ok = true := by
  rw [List.all_map]
  exact List.all_eq_true.mpr (fun p _ => rfl)

/-! ## Resource cache

The hooks delegate caching to the SWR library, which is not part of this
repository's sources; the cache entry and its settlement commit are modelled
from the spec (sections 3, 4.3 and 7). -/

/-- The three resource keys registered by the dashboard. -/
inductive ResourceKey where
  | overview
  | charts
  | activities
deriving DecidableEq

/-- Modelled from the spec: a cache entry of the Resource Cache — last
successfully fetched payload, last error, timestamp of the last successful
fetch, and the in-flight flag (spec section 3, `CacheEntry<T>`). -/
structure CacheEntry (α : Type) where
  data : Option α := none
  error : Option String := none
  fetchedAt : Option Nat := none
  isValidating : Bool := false
deriving DecidableEq

/-- Modelled from the spec: the commit applied to a key's cache entry when its
revalidation fetch settles — on success set `data`, clear `error`, stamp
`fetchedAt`; on failure set only `error`, retaining `data` and `fetchedAt`
(stale-while-error, spec sections 4.3 and 7). -/
def commitResult (e : CacheEntry α) (r : Except String α) (now : Nat) : CacheEntry α :=
  match r with
  | .ok v => { data := some v, error := none, fetchedAt := some now, isValidating := false }
  | .error err => { e with error := some err, isValidating := false }

/-- The whole resource cache: one entry per registered key. -/
def Cache (α : Type) : Type := ResourceKey → CacheEntry α

/-- The all-empty cache (before any fetch). -/
def emptyCache (α : Type) : Cache α := fun _ => {}

/-- Effect of `handleRefresh` on the cache: each key's bound `mutate()`
revalidates through the SWR fetch path and commits its own result (spec-modelled
`commitResult`) at its own settlement time. -/
def handleRefreshCache (c : Cache α) (res : ResourceKey → Except String α)
    (t : ResourceKey → Nat) : Cache α :=
  fun k => commitResult (c k) (res k) (t k)

/-- Effect of `refreshAllData` on the cache: none. The function issues raw
`fetch` calls whose responses are discarded — rejections are swallowed by
`.catch(() => null)` and fulfilled responses are never read or written anywhere,
so no cache entry changes regardless of each endpoint's result. -/
def refreshAllDataCache (c : Cache α) (_res : ResourceKey → Except String α) : Cache α := c

/-! ## Deduplicator

Request deduplication also lives inside the SWR library; it is modelled from the
spec (sections 4.2 and 9: an explicit in-flight registry mapping a key to a
shared promise handle). -/

/-- Modelled from the spec: state of the Deduplicator — the in-flight promise id
per key (at most one, enforced by the type), a fresh-promise counter, and the
number of fetch-function invocations performed per key. -/
structure DedupState (κ : Type) where
  inflight : κ → Option Nat
  nextId : Nat
  invocations : κ → Nat

/-- The Deduplicator's initial state: nothing in flight, nothing invoked. -/
def initialDedup (κ : Type) : DedupState κ :=
  { inflight := fun _ => none, nextId := 0, invocations := fun _ => 0 }

/-- Modelled from the spec: `run(key, fetchFn)` — if an in-flight promise already
exists for `key`, return that same promise to the caller without invoking the
fetch function again; otherwise invoke it, record the fresh promise, and return
it (spec section 4.2). -/
def DedupState.run [DecidableEq κ] (s : DedupState κ) (k : κ) : Nat × DedupState κ :=
  match s.inflight k with
  | some pid => (pid, s)
  | none =>
    (s.nextId,
     { inflight := fun q => if q = k then some s.nextId else s.inflight q
       nextId := s.nextId + 1
       invocations := fun q => if q = k then s.invocations q + 1 else s.invocations q })

/-- Modelled from the spec: clearing of the in-flight record for `key` when its
promise settles (success or failure). -/
def DedupState.settleKey [DecidableEq κ] (s : DedupState κ) (k : κ) : DedupState κ :=
  { s with inflight := fun q => if q = k then none else s.inflight q }

/-- A burst of `n` concurrent `run` calls for the same key (all arriving before
the shared promise settles): returns the promise id each caller received and the
final state. -/
def DedupState.runMany [DecidableEq κ] (s : DedupState κ) (k : κ) : Nat → List Nat × DedupState κ
  | 0 => ([], s)
  | n+1 =>
    ((s.run k).1 :: (((s.run k).2).runMany k n).1, (((s.run k).2).runMany k n).2)

/-- Settlement of the shared promise `settledId` with result `r`: reading any
promise id afterwards yields `r` exactly for that id (all waiters of the shared
promise receive the value verbatim). -/
def deliver (settledId : Nat) (r : α) : Nat → Option α :=
  fun pid => if pid = settledId then some r else none

/-- A `run` against an existing in-flight record returns that record unchanged. -/
theorem run_of_inflight [DecidableEq κ] {s : DedupState κ} {k : κ} {pid : Nat}
    (h : s.inflight k = some pid) : s.run k = (pid, s) := by
  simp [DedupState.run, h]

/-- Repeated `run` calls against an existing in-flight record all share it and
change nothing. -/
theorem runMany_of_inflight [DecidableEq κ] {s : DedupState κ} {k : κ} {pid : Nat}
    (h : s.inflight k = some pid) :
    ∀ n, s.runMany k n = (List.replicate n pid, s) := by
  intro n
  induction n with
  | zero => rfl
  | succ n ih =>
    simp only [DedupState.runMany, run_of_inflight h, ih]
    rfl

/-- A `run` with nothing in flight invokes the fetch once and records the fresh
promise for its key. -/
theorem run_of_none [DecidableEq κ] {s : DedupState κ} {k : κ} (h : s.inflight k = none) :
    (s.run k).1 = s.nextId ∧
    ((s.run k).2).inflight k = some s.nextId ∧
    ((s.run k).2).invocations k = s.invocations k + 1 ∧
    ((s.run k).2).nextId = s.nextId + 1 := by
  simp [DedupState.run, h]

/-! ## Duration formatter (src/frontend/src/utils/formatters.ts, lines 23-29)

`formatDuration` takes `minutes: number | null`. The JavaScript number is
modelled as a rational; `Math.floor` is the rational floor, `Math.round x` is
`floor (x + 1/2)` (round half toward positive infinity), and the `%` remainder
truncates the quotient toward zero. -/

/-- JavaScript `Math.floor` on a rational. -/
def jsFloor (q : ℚ) : Int := Rat.floor q

/-- JavaScript `Math.round` on a rational: floor of `q + 1/2`. -/
def jsRound (q : ℚ) : Int := Rat.floor (q + 1/2)

/-- JavaScript truncation toward zero (the quotient convention of `%`). -/
def jsTrunc (q : ℚ) : Int := if 0 ≤ q then Rat.floor q else -Rat.floor (-q)

/-- JavaScript remainder `a % b`: `a - b * trunc(a / b)`. -/
def jsMod (a b : ℚ) : ℚ := a - b * (jsTrunc (a / b) : ℚ)

/-- The `formatDuration` of formatters.ts: `"N/A"` for `null`; for
`minutes < 60` the rounded value suffixed `min`; otherwise
`` `${Math.floor(minutes / 60)}h ${Math.round(minutes % 60)}m` ``. -/
def formatDuration : Option ℚ → String
  | none => "N/A"
  | some minutes =>
    if minutes < 60 then jsIntToString (jsRound minutes) ++ "min"
    else jsIntToString (jsFloor (minutes / 60)) ++ "h " ++
         jsIntToString (jsRound (jsMod minutes 60)) ++ "m"

/-- The embedded `Math.round` agrees with the round-half-up convention `⌊q + 1/2⌋`. -/
theorem jsRound_eq_round (q : ℚ) : jsRound q = round q := by
  rw [round_eq]
  rfl

/-- For a nonnegative dividend, the JavaScript remainder by 60 is
`a - 60 * ⌊a / 60⌋`. -/
theorem jsMod_of_nonneg {a : ℚ} (h : 0 ≤ a) : jsMod a 60 = a - 60 * (⌊a / 60⌋ : ℚ) := by
  have hq : (0 : ℚ) ≤ a / 60 := by positivity
  unfold jsMod jsTrunc
  rw [if_pos hq]
  rfl

/-- A Promise.all with a rejected member rejects. -/
theorem promiseAll_of_mem_rejected {ps : List Settled} {p : Settled} (hp : p ∈ ps)
    (hok : p.ok = false) : (promiseAll ps).ok = false := by
  unfold promiseAll
  cases hmin : minRejTime ps with
  | some t => rfl
  | none =>
    exfalso
    unfold minRejTime at hmin
    have hpf : p ∈ ps.filter fun q => !q.ok := by
      rw [List.mem_filter]
      exact ⟨hp, by simp [hok]⟩
    cases hfil : ps.filter fun q => !q.ok with
    | nil => rw [hfil] at hpf; exact List.not_mem_nil p hpf
    | cons a l =>
      rw [hfil] at hmin
      simp [List.min?] at hmin

/-! ## Claim theorems -/

/-- C8: each resource subscription is configured with its own revalidation
interval — 30 seconds for the overview resource, 60 seconds for the charts
resource, 15 seconds for the activities resource — and each has revalidation on
window focus enabled. -/
theorem C8_per_resource_config :
    useDashboardOverviewConfig.refreshInterval = 30 * 1000 ∧
    useChartsDataConfig.refreshInterval = 60 * 1000 ∧
    useRecentActivitiesConfig.refreshInterval = 15 * 1000 ∧
    useDashboardOverviewConfig.revalidateOnFocus = true ∧
    useChartsDataConfig.revalidateOnFocus = true ∧
    useRecentActivitiesConfig.revalidateOnFocus = true := by
  decide

/-- C4: a non-2xx response is rejected with the typed `Error` whose message
carries — and uniquely determines — the HTTP status code; a 2xx response with a
body that fails to parse is rejected as a decode error, propagated exactly like
a network failure; and every rejection of the fetcher is one of the three kinds
(network, API error with status, decode) — nothing else escapes. -/
theorem C4_fetcher_error_taxonomy {α : Type} (r : FetchOutcome α) :
    (∀ status body, r = .response status body → responseOk status = false →
      fetcher r = .error (.apiError (apiErrorMessage status))) ∧
    (∀ status, r = .response status .malformed → responseOk status = true →
      fetcher r = .error .decodeError) ∧
    (∀ s s', apiErrorMessage s = apiErrorMessage s' → s = s') ∧
    (∀ s, responseOk s = true ↔ (200 ≤ s ∧ s ≤ 299)) ∧
    ((∃ v, fetcher r = .ok v) ∨ fetcher r = .error .networkError ∨
      (∃ s, fetcher r = .error (.apiError (apiErrorMessage s))) ∨
      fetcher r = .error .decodeError) := by
  refine ⟨?_, ?_, fun s s' h => apiErrorMessage_injective h, ?_, ?_⟩
  · intro status body hr hok
    subst hr
    simp [fetcher, hok]
  · intro status hr hok
    subst hr
    simp [fetcher, hok]
  · intro s
    simp [responseOk]
  · cases r with
    | netFail => exact Or.inr (Or.inl rfl)
    | response status body =>
      cases hok : responseOk status with
      | false =>
        exact Or.inr (Or.inr (Or.inl ⟨status, by simp [fetcher, hok]⟩))
      | true =>
        cases body with
        | ok v => exact Or.inl ⟨v, by simp [fetcher, hok]⟩
        | malformed => exact Or.inr (Or.inr (Or.inr (by simp [fetcher, hok])))

/-- Witness for C4 at concrete outcomes: a 404 response is rejected with the
status-carrying message, and a 200 response with a malformed body is rejected as
a decode error. -/
theorem C4_witness :
    fetcher (FetchOutcome.response 404 (JsonBody.malformed : JsonBody Nat)) =
      Except.error (FetchError.apiError (apiErrorMessage 404)) ∧
    fetcher (FetchOutcome.response 200 (JsonBody.malformed : JsonBody Nat)) =
      Except.error FetchError.decodeError :=
  ⟨(C4_fetcher_error_taxonomy (FetchOutcome.response 404 JsonBody.malformed)).1
      404 JsonBody.malformed rfl (by decide),
   (C4_fetcher_error_taxonomy (FetchOutcome.response 200 JsonBody.malformed)).2.1
      200 rfl (by decide)⟩

/-- C5: after a successful fetch, the entry's `data` equals the fetched payload
and `fetchedAt` is stamped; a subsequent failed fetch for the same key leaves
`data` and `fetchedAt` unchanged and only sets `error`; and once `data` has been
set by a success it is never rolled back to `undefined` by any later commit
(stale-while-error). -/
theorem C5_stale_while_error {α : Type} (e : CacheEntry α) (v : α) (t : Nat)
    (err : String) (t' : Nat) :
    (commitResult e (.ok v) t).data = some v ∧
    (commitResult e (.ok v) t).fetchedAt = some t ∧
    (commitResult (commitResult e (.ok v) t) (.error err) t').data = some v ∧
    (commitResult (commitResult e (.ok v) t) (.error err) t').fetchedAt = some t ∧
    (commitResult (commitResult e (.ok v) t) (.error err) t').error = some err ∧
    (∀ (w : α) (r : Except String α) (t₂ : Nat),
      e.data = some w → (commitResult e r t₂).data ≠ none) := by
  refine ⟨rfl, rfl, rfl, rfl, rfl, ?_⟩
  intro w r t₂ hw
  cases r with
  | ok u => simp [commitResult]
  | error er => simp [commitResult, hw]

/-- Witness for C5 at a concrete entry: an entry holding data 3 keeps non-empty
data through a failed commit. -/
theorem C5_witness :
    (commitResult (⟨some 3, none, some 1, false⟩ : CacheEntry Nat)
      (Except.error "boom") 9).data ≠ none :=
  (C5_stale_while_error (⟨some 3, none, some 1, false⟩ : CacheEntry Nat)
      7 0 "x" 0).2.2.2.2.2 3 (Except.error "boom") 9 rfl

/-- C6: N concurrent callers of the same key while a fetch is in flight share one
promise — the fetch function is invoked exactly once, every caller receives the
same fresh promise id, that id stays recorded as the single in-flight fetch for
the key, and on settlement every caller reads the same result verbatim. -/
theorem C6_dedup_single_flight {κ α : Type} [DecidableEq κ] (s : DedupState κ) (k : κ)
    (n : Nat) (r : α) (h : s.inflight k = none) :
    (s.runMany k (n+1)).1 = List.replicate (n+1) s.nextId ∧
    ((s.runMany k (n+1)).2).invocations k = s.invocations k + 1 ∧
    ((s.runMany k (n+1)).2).inflight k = some s.nextId ∧
    (s.runMany k (n+1)).1.map (deliver s.nextId r) = List.replicate (n+1) (some r) := by
  obtain ⟨hpid, hinf, hinv, hnext⟩ := run_of_none h
  have hmany := runMany_of_inflight hinf n
  have hfst : (s.runMany k (n+1)).1 = List.replicate (n+1) s.nextId := by
    show (s.run k).1 :: (((s.run k).2).runMany k n).1 = _
    rw [hpid, hmany, List.replicate_succ]
  have hsnd : (s.runMany k (n+1)).2 = (s.run k).2 := by
    show (((s.run k).2).runMany k n).2 = _
    rw [hmany]
  refine ⟨hfst, ?_, ?_, ?_⟩
  · rw [hsnd, hinv]
  · rw [hsnd, hinf]
  · rw [hfst, List.map_replicate]
    simp [deliver]

/-- Witness for C6: three concurrent callers on the fresh Deduplicator all get
promise 0 and cause exactly one invocation. -/
theorem C6_witness :
    ((initialDedup ResourceKey).runMany ResourceKey.overview 3).1 =
      List.replicate 3 (initialDedup ResourceKey).nextId ∧
    (((initialDedup ResourceKey).runMany ResourceKey.overview 3).2).invocations
      ResourceKey.overview = (initialDedup ResourceKey).invocations ResourceKey.overview + 1 :=
  ⟨(C6_dedup_single_flight (initialDedup ResourceKey) ResourceKey.overview 2 (42 : Nat) rfl).1,
   (C6_dedup_single_flight (initialDedup ResourceKey) ResourceKey.overview 2 (42 : Nat) rfl).2.1⟩

/-- C10: `formatDuration` is total on `number | null` and returns `"N/A"` exactly
for `null`; on `0 ≤ minutes < 60` it renders the value rounded to the nearest
integer (half up) suffixed `min`; on `minutes ≥ 60` it renders
`⌊minutes / 60⌋` hours and `round(minutes mod 60)` minutes — so the rendered
minutes component can reach 60: `formatDuration 119.5 = "1h 60m"`. -/
theorem C10_formatDuration_spec :
    formatDuration none = "N/A" ∧
    (∀ m : ℚ, formatDuration (some m) ≠ "N/A") ∧
    (∀ m : ℚ, 0 ≤ m → m < 60 →
      formatDuration (some m) = jsIntToString (round m) ++ "min") ∧
    (∀ m : ℚ, 60 ≤ m → formatDuration (some m) =
      jsIntToString ⌊m / 60⌋ ++ "h " ++
        jsIntToString (round (m - 60 * (⌊m / 60⌋ : ℚ))) ++ "m") ∧
    formatDuration (some (119.5 : ℚ)) = "1h 60m" := by
  have hbig : ∀ m : ℚ, 60 ≤ m → formatDuration (some m) =
      jsIntToString ⌊m / 60⌋ ++ "h " ++
        jsIntToString (round (m - 60 * (⌊m / 60⌋ : ℚ))) ++ "m" := by
    intro m hm
    have hlt : ¬ (m < 60) := not_lt.mpr hm
    have h0 : (0 : ℚ) ≤ m := le_trans (by norm_num) hm
    show (if m < 60 then jsIntToString (jsRound m) ++ "min" else _) = _
    rw [if_neg hlt, jsMod_of_nonneg h0, jsRound_eq_round]
    rfl
  refine ⟨rfl, ?_, ?_, hbig, ?_⟩
  · intro m
    show (if m < 60 then jsIntToString (jsRound m) ++ "min" else _) ≠ _
    by_cases hlt : m < 60
    · rw [if_pos hlt]
      exact append_min_ne_NA _
    · rw [if_neg hlt]
      exact append_hm_ne_NA _ _
  · intro m _ hlt
    show (if m < 60 then jsIntToString (jsRound m) ++ "min" else _) = _
    rw [if_pos hlt, jsRound_eq_round]
  · rw [hbig (119.5 : ℚ) (by norm_num)]
    have h1 : (⌊(119.5 : ℚ) / 60⌋ : ℤ) = 1 := by
      norm_num [Int.floor_eq_iff]
    rw [h1]
    have h2 : round ((119.5 : ℚ) - 60 * ((1 : ℤ) : ℚ)) = 60 := by
      rw [round_eq]
      norm_num [Int.floor_eq_iff]
    rw [h2]
    decide

/-- Witness for C10 at concrete inputs: 30 minutes renders as its rounded value
with the `min` suffix, and 119.5 minutes (`mkRat 239 2`) takes the
hours-and-minutes branch. -/
theorem C10_witness :
    formatDuration (some (30 : ℚ)) = jsIntToString (round (30 : ℚ)) ++ "min" ∧
    formatDuration (some (mkRat 239 2)) =
      jsIntToString ⌊(mkRat 239 2 : ℚ) / 60⌋ ++ "h " ++
        jsIntToString (round ((mkRat 239 2 : ℚ) - 60 * (⌊(mkRat 239 2 : ℚ) / 60⌋ : ℚ))) ++ "m" :=
  ⟨C10_formatDuration_spec.2.2.1 30 (by decide) (by decide),
   C10_formatDuration_spec.2.2.2.1 (mkRat 239 2) (by decide)⟩

/-- C1 fails as stated: with the overview mutate rejecting at time 10 and the
charts and activities mutates fulfilling at times 30 and 50, the bare
`Promise.all` of `handleRefresh` — and with it the refresh action — settles
(rejects) already at time 10, before the fetches of the other keys have settled,
instead of resolving once all three have. -/
theorem C1_counterexample :
    handleRefreshSettle [⟨10, false⟩, ⟨30, true⟩, ⟨50, true⟩] = ⟨10, false⟩ ∧
    (handleRefreshSettle [⟨10, false⟩, ⟨30, true⟩, ⟨50, true⟩]).ok = false ∧
    (handleRefreshSettle [⟨10, false⟩, ⟨30, true⟩, ⟨50, true⟩]).time <
      maxTime [⟨10, false⟩, ⟨30, true⟩, ⟨50, true⟩] := by
  decide

/-- C1 amended: `refreshAllData` settles for every invocation — it always
resolves, exactly at the latest settlement time of its member fetches (each
wrapped in `catch`), so one endpoint's failure neither aborts the others nor
prevents settlement; `handleRefresh` resolves at the latest mutate settlement
when every mutate fulfills, but when any mutate rejects its `Promise.all`
rejects at the rejection time of one of its members, possibly before the
remaining fetches settle. -/
theorem C1_refresh_settlement (ps ms : List Settled) :
    (refreshAllDataSettle ps).ok = true ∧
    (refreshAllDataSettle ps).time = maxTime ps ∧
    (ms.all Settled.ok = true → handleRefreshSettle ms = ⟨maxTime ms, true⟩) ∧
    ((handleRefreshSettle ms).ok = false →
      ∃ p ∈ ms, p.ok = false ∧ p.time = (handleRefreshSettle ms).time) := by
  refine ⟨?_, ?_, fun h => promiseAll_of_all_ok h, fun h => promiseAll_of_rejected h⟩
  · show (promiseAll (ps.map catchNull)).ok = true
    rw [promiseAll_of_all_ok (all_ok_map_catchNull ps)]
  · show (promiseAll (ps.map catchNull)).time = maxTime ps
    rw [promiseAll_of_all_ok (all_ok_map_catchNull ps)]
    exact maxTime_map_catchNull ps

/-- Witness for C1 at concrete settlements: a failing member does not stop
`refreshAllData` from resolving, and an all-fulfilling `handleRefresh` settles at
the latest member time. -/
theorem C1_witness :
    (refreshAllDataSettle [⟨10, false⟩, ⟨50, true⟩]).ok = true ∧
    handleRefreshSettle [⟨10, true⟩, ⟨50, true⟩] =
      ⟨maxTime [⟨10, true⟩, ⟨50, true⟩], true⟩ :=
  ⟨(C1_refresh_settlement [⟨10, false⟩, ⟨50, true⟩] [⟨10, true⟩, ⟨50, true⟩]).1,
   (C1_refresh_settlement [⟨10, false⟩, ⟨50, true⟩] [⟨10, true⟩, ⟨50, true⟩]).2.2.1 (by decide)⟩

/-- C2 fails as stated: with the single batch fetch fulfilling at time 1000
(longer than 500 ms), the claim puts the end of `isRefreshing` at
max(1000, 0 + 500) = 1000, but the code schedules the reset 500 ms after
settlement, at 1500 — the flag is still true at time 1200. -/
theorem C2_counterexample :
    isRefreshingOffTime [⟨1000, true⟩] = some 1500 ∧
    max 1000 (0 + minimumVisibleDuration) = 1000 ∧
    (1500 : Nat) ≠ 1000 ∧
    isRefreshingAt [⟨1000, true⟩] 1200 = true := by
  decide

/-- C2 amended: when every mutate fulfills, `isRefreshing` is true from
invocation (time 0) until settlement time plus the fixed 500 ms constant — hence
at least 500 ms even for instant settlement, but 500 ms beyond settlement rather
than `max(settlement, 500)`; when any mutate rejects, the reset is never
scheduled and the flag stays true forever. -/
theorem C2_isRefreshing_window (ms : List Settled) :
    (ms.all Settled.ok = true →
      isRefreshingOffTime ms = some (maxTime ms + minimumVisibleDuration) ∧
      (∀ t, isRefreshingAt ms t = true ↔ t < maxTime ms + minimumVisibleDuration) ∧
      minimumVisibleDuration ≤ maxTime ms + minimumVisibleDuration) ∧
    (ms.all Settled.ok = false → ∀ t, isRefreshingAt ms t = true) := by
  constructor
  · intro h
    have hall : handleRefreshSettle ms = ⟨maxTime ms, true⟩ := promiseAll_of_all_ok h
    have hoff : isRefreshingOffTime ms = some (maxTime ms + minimumVisibleDuration) := by
      unfold isRefreshingOffTime
      rw [hall]
      rfl
    refine ⟨hoff, ?_, Nat.le_add_left _ _⟩
    intro t
    unfold isRefreshingAt
    rw [hoff]
    simp
  · intro h t
    have hex : ∃ p ∈ ms, p.ok = false := by
      by_contra hc
      push_neg at hc
      have : ms.all Settled.ok = true :=
        List.all_eq_true.mpr fun p hp => by
          cases hpok : p.ok with
          | true => rfl
          | false => exact absurd hpok (hc p hp)
      rw [this] at h
      exact absurd h (by decide)
    rcases hex with ⟨p, hp, hpok⟩
    have hrej : (handleRefreshSettle ms).ok = false := promiseAll_of_mem_rejected hp hpok
    unfold isRefreshingAt isRefreshingOffTime
    rw [hrej]
    rfl

/-- Witness for C2 at concrete settlements: two instantly fulfilling mutates keep
the flag on until exactly 500 ms, and a rejecting mutate keeps it on at an
arbitrarily late time. -/
theorem C2_witness :
    isRefreshingOffTime [⟨0, true⟩, ⟨0, true⟩] =
      some (maxTime [⟨0, true⟩, ⟨0, true⟩] + minimumVisibleDuration) ∧
    isRefreshingAt [⟨3, false⟩] 1000000 = true :=
  ⟨((C2_isRefreshing_window [⟨0, true⟩, ⟨0, true⟩]).1 (by decide)).1,
   (C2_isRefreshing_window [⟨3, false⟩]).2 (by decide) 1000000⟩

/-- C3 fails as stated for `refreshAllData`: starting from the empty cache with
the raw fetch of every endpoint succeeding (payload 7), the cache after
`refreshAllData` resolves is unchanged — the succeeded overview key's data is
not updated, because the raw responses are discarded; the mutate-based
`handleRefresh` path, by contrast, commits. -/
theorem C3_counterexample :
    (refreshAllDataCache (emptyCache Nat)
      (fun _ => Except.ok 7) ResourceKey.overview).data = none ∧
    (none : Option Nat) ≠ some 7 ∧
    (handleRefreshCache (emptyCache Nat) (fun _ => Except.ok 7)
      (fun _ => 0) ResourceKey.overview).data = some 7 := by
  decide

/-- C3 amended: `handleRefresh` does go through the per-resource revalidation
primitive — each key's `mutate()` commits its own result to that key's entry,
success updating `data` and `fetchedAt`, failure setting `error` while retaining
`data`; `refreshAllData` bypasses that primitive entirely: its raw fetches
commit nothing, and the cache is unchanged whatever each endpoint's result. -/
theorem C3_refresh_commits {α : Type} (c : Cache α) (res : ResourceKey → Except String α)
    (t : ResourceKey → Nat) (k : ResourceKey) :
    (∀ v, res k = .ok v →
      (handleRefreshCache c res t k).data = some v ∧
      (handleRefreshCache c res t k).fetchedAt = some (t k)) ∧
    (∀ err, res k = .error err →
      (handleRefreshCache c res t k).error = some err ∧
      (handleRefreshCache c res t k).data = (c k).data) ∧
    refreshAllDataCache c res = c := by
  refine ⟨?_, ?_, rfl⟩
  · intro v hv
    constructor <;> simp [handleRefreshCache, commitResult, hv]
  · intro err herr
    constructor <;> simp [handleRefreshCache, commitResult, herr]

/-- Witness for C3 at a concrete cache: a successful charts result is committed
by the mutate path while `refreshAllData` leaves the cache untouched. -/
theorem C3_witness :
    (handleRefreshCache (emptyCache Nat)
      (fun _ => (Except.ok 7 : Except String Nat)) (fun _ => 4) ResourceKey.charts).data =
      some 7 ∧
    refreshAllDataCache (emptyCache Nat)
      (fun _ => (Except.ok 7 : Except String Nat)) = emptyCache Nat :=
  ⟨((C3_refresh_commits (emptyCache Nat) (fun _ => (Except.ok 7 : Except String Nat))
      (fun _ => 4) ResourceKey.charts).1 7 rfl).1,
   (C3_refresh_commits (emptyCache Nat) (fun _ => (Except.ok 7 : Except String Nat))
      (fun _ => 4) ResourceKey.charts).2.2⟩

/-- C7 fails as stated: two successive successful refreshes of a key with
identical backend data do perform two fetch invocations, but the resulting
cache entries are not identical — the second commit restamps `fetchedAt`
(at times 0 and 1 the entries differ in that field alone). -/
theorem C7_counterexample :
    commitResult (commitResult ({} : CacheEntry Nat) (Except.ok 7) 0) (Except.ok 7) 1 ≠
      commitResult ({} : CacheEntry Nat) (Except.ok 7) 0 ∧
    (commitResult (commitResult ({} : CacheEntry Nat) (Except.ok 7) 0)
      (Except.ok 7) 1).fetchedAt = some 1 ∧
    (commitResult ({} : CacheEntry Nat) (Except.ok 7) 0).fetchedAt = some 0 := by
  decide

/-- C7 amended: deduplication applies only to the open in-flight period — a
second `refresh()` after the first has settled invokes the fetch again (two
invocations, a fresh promise id); with backend data unchanged the two committed
entries agree on `data`, `error` and `isValidating`, but `fetchedAt` is
restamped to each fetch's own commit time, so the entries are fully identical
exactly when the two commit times coincide. -/
theorem C7_no_dedup_after_settle {κ α : Type} [DecidableEq κ] (s : DedupState κ) (k : κ)
    (h : s.inflight k = none) (e : CacheEntry α) (v : α) (t₁ t₂ : Nat) :
    ((((s.run k).2).settleKey k).run k).1 ≠ (s.run k).1 ∧
    (((((s.run k).2).settleKey k).run k).2).invocations k = s.invocations k + 2 ∧
    (commitResult (commitResult e (.ok v) t₁) (.ok v) t₂).data =
      (commitResult e (.ok v) t₁).data ∧
    (commitResult (commitResult e (.ok v) t₁) (.ok v) t₂).error =
      (commitResult e (.ok v) t₁).error ∧
    (commitResult (commitResult e (.ok v) t₁) (.ok v) t₂).isValidating =
      (commitResult e (.ok v) t₁).isValidating ∧
    (commitResult (commitResult e (.ok v) t₁) (.ok v) t₂).fetchedAt = some t₂ ∧
    (t₁ = t₂ →
      commitResult (commitResult e (.ok v) t₁) (.ok v) t₂ = commitResult e (.ok v) t₁) := by
    refine ⟨?_, ?_, rfl, rfl, rfl, rfl, ?_⟩
    · simp [DedupState.run, DedupState.settleKey, h]
    · simp [DedupState.run, DedupState.settleKey, h]
    · intro ht
      subst ht
      rfl

/-- Witness for C7 at the fresh Deduplicator: two runs with a settlement between
them yield two invocations, and commits at equal times yield equal entries. -/
theorem C7_witness :
    (((((initialDedup ResourceKey).run ResourceKey.charts).2.settleKey
        ResourceKey.charts).run ResourceKey.charts).2).invocations ResourceKey.charts =
      (initialDedup ResourceKey).invocations ResourceKey.charts + 2 ∧
    commitResult (commitResult ({} : CacheEntry Nat) (Except.ok 7) 3) (Except.ok 7) 3 =
      commitResult ({} : CacheEntry Nat) (Except.ok 7) 3 :=
  ⟨(C7_no_dedup_after_settle (initialDedup ResourceKey) ResourceKey.charts rfl
      ({} : CacheEntry Nat) 7 3 3).2.1,
   (C7_no_dedup_after_settle (initialDedup ResourceKey) ResourceKey.charts rfl
      ({} : CacheEntry Nat) 7 3 3).2.2.2.2.2.2 rfl⟩

/-- C9 fails as stated: `refreshAllData` also issues a request for the
recent-activities resource, with the bare URL
`/api/v1/dashboard/recent-activities` — carrying no `limit` query parameter at
all — while the hook's request URL always carries one. -/
theorem C9_counterexample :
    refreshAllDataUrls =
      ["/api/v1/dashboard/overview", "/api/v1/dashboard/charts",
       "/api/v1/dashboard/recent-activities"] ∧
    ¬ hasLimitParam "/api/v1/dashboard/recent-activities" ∧
    hasLimitParam (recentActivitiesKey 20) ∧
    "/api/v1/dashboard/recent-activities" ≠ recentActivitiesKey 20 := by
  decide

/-- C9 amended: every request made through `useRecentActivities` carries the
page-size limit as a `?limit=N` query parameter, the parameter defaults to 20
when the caller passes none, and the limit is part of the SWR resource key —
distinct limits give distinct keys; the raw `refreshAllData` fetch of the
recent-activities endpoint, however, carries no limit parameter. -/
theorem C9_limit_in_key (l l₁ l₂ : Nat) :
    hasLimitParam (recentActivitiesKey l) ∧
    (recentActivitiesKey l₁ = recentActivitiesKey l₂ → l₁ = l₂) ∧
    useRecentActivitiesDefaultLimit = 20 ∧
    ¬ hasLimitParam (API_BASE ++ "/recent-activities") := by
  refine ⟨?_, ?_, rfl, by decide⟩
  · have hdata : (recentActivitiesKey l).data =
        ("/api/v1/dashboard/recent-activities?").data ++ ("limit=").data ++
          (jsNatToString l).data := by
      show ((API_BASE ++ "/recent-activities?limit=") ++ jsNatToString l).data = _
      rw [strAppend_data]
      rfl
    exact ⟨("/api/v1/dashboard/recent-activities?").data, (jsNatToString l).data,
      hdata.symm⟩
  · intro h
    exact jsNatToString_injective (strAppend_left_cancel h)

/-- Witness for C9 at the default limit: the key of limit 20 carries the
parameter, and key equality at 20 yields 20. -/
theorem C9_witness :
    hasLimitParam (recentActivitiesKey 20) ∧ (20 : Nat) = 20 :=
  ⟨(C9_limit_in_key 20 20 20).1, (C9_limit_in_key 20 20 20).2.1 rfl⟩

end RouteEngine
